import Mathlib

/-!
Verification development for the QuantifyX DRM extension core.

The TypeScript sources are shallowly embedded: bytes are `Nat` values below
256, byte buffers are `List Nat`, machine integers are `Nat` with explicit
reduction modulo `2 ^ 32` where the source relies on 32-bit wrap-around, and
fallible operations return `Except`/`Option`.  Library primitives that the
source calls (node's `crypto.createHmac('sha256', _)`, `crypto.createHash`,
`crypto.createDecipheriv('aes-128-cbc' / 'aes-256-cbc', _, _)`,
`Buffer.from(_, 'base64')`) are implemented here from their public
specifications (FIPS 180-4, FIPS 197, RFC 2104, RFC 4648) so that every
definition is executable.
-/

namespace QuantifyX

/-! ## SHA-256 (FIPS 180-4), backing node's `crypto.createHmac('sha256', k)`
and `crypto.createHash('sha256')` -/

namespace Sha256

def M32 : Nat := 2 ^ 32

def add32 (a b : Nat) : Nat := (a + b) % M32

def rotr32 (x n : Nat) : Nat := ((x >>> n) ||| (x <<< (32 - n))) % M32

def bigSigma0 (x : Nat) : Nat := rotr32 x 2 ^^^ rotr32 x 13 ^^^ rotr32 x 22

def bigSigma1 (x : Nat) : Nat := rotr32 x 6 ^^^ rotr32 x 11 ^^^ rotr32 x 25

def smallSigma0 (x : Nat) : Nat := rotr32 x 7 ^^^ rotr32 x 18 ^^^ (x >>> 3)

def smallSigma1 (x : Nat) : Nat := rotr32 x 17 ^^^ rotr32 x 19 ^^^ (x >>> 10)

def chFn (x y z : Nat) : Nat := (x &&& y) ^^^ ((x ^^^ (M32 - 1)) &&& z)

def majFn (x y z : Nat) : Nat := (x &&& y) ^^^ (x &&& z) ^^^ (y &&& z)

def K : List Nat := [
  1116352408, 1899447441, 3049323471, 3921009573, 961987163, 1508970993,
  2453635748, 2870763221, 3624381080, 310598401, 607225278, 1426881987,
  1925078388, 2162078206, 2614888103, 3248222580, 3835390401, 4022224774,
  264347078, 604807628, 770255983, 1249150122, 1555081692, 1996064986,
  2554220882, 2821834349, 2952996808, 3210313671, 3336571891, 3584528711,
  113926993, 338241895, 666307205, 773529912, 1294757372, 1396182291,
  1695183700, 1986661051, 2177026350, 2456956037, 2730485921, 2820302411,
  3259730800, 3345764771, 3516065817, 3600352804, 4094571909, 275423344,
  430227734, 506948616, 659060556, 883997877, 958139571, 1322822218,
  1537002063, 1747873779, 1955562222, 2024104815, 2227730452, 2361852424,
  2428436474, 2756734187, 3204031479, 3329325298]

def H0 : List Nat := [
  1779033703, 3144134277, 1013904242, 2773480762, 1359893119,
  2600822924, 528734635, 1541459225]

/-- Big-endian encoding of a value as `n` bytes. -/
def beBytes (n v : Nat) : List Nat :=
  match n with
  | 0 => []
  | m + 1 => beBytes m (v / 256) ++ [v % 256]

/-- FIPS 180-4 padding: append `0x80`, zeros to 56 mod 64, then the bit
length as 8 big-endian bytes. -/
def pad (msg : List Nat) : List Nat :=
  let z := (64 + 56 - (msg.length + 1) % 64) % 64
  msg ++ [0x80] ++ List.replicate z 0 ++ beBytes 8 (msg.length * 8)

/-- Group bytes into big-endian 32-bit words. -/
def toWords : List Nat → List Nat
  | a :: b :: c :: d :: rest => (((a * 256 + b) * 256 + c) * 256 + d) :: toWords rest
  | _ => []

/-- Extend the 16-word block to the 64-word message schedule. -/
def extendW : List Nat → Nat → List Nat
  | w, 0 => w
  | w, n + 1 =>
    let i := w.length
    let nw := add32 (add32 (smallSigma1 (w.getD (i - 2) 0)) (w.getD (i - 7) 0))
      (add32 (smallSigma0 (w.getD (i - 15) 0)) (w.getD (i - 16) 0))
    extendW (w ++ [nw]) n

/-- The 64 compression rounds over the zipped `(K, W)` pairs. -/
def rounds : List (Nat × Nat) → Nat → Nat → Nat → Nat → Nat → Nat → Nat → Nat →
    Nat × Nat × Nat × Nat × Nat × Nat × Nat × Nat
  | [], a, b, c, d, e, f, g, h => (a, b, c, d, e, f, g, h)
  | (k, w) :: rest, a, b, c, d, e, f, g, h =>
    let t1 := add32 h (add32 (bigSigma1 e) (add32 (chFn e f g) (add32 k w)))
    let t2 := add32 (bigSigma0 a) (majFn a b c)
    rounds rest (add32 t1 t2) a b c (add32 d t1) e f g

/-- One compression step: current hash value and one 64-byte block. -/
def compress (h : List Nat) (block : List Nat) : List Nat :=
  let w := extendW (toWords block) 48
  match rounds (K.zip w) (h.getD 0 0) (h.getD 1 0) (h.getD 2 0) (h.getD 3 0)
      (h.getD 4 0) (h.getD 5 0) (h.getD 6 0) (h.getD 7 0) with
  | (a, b, c, d, e, f, g, hh) =>
    [add32 (h.getD 0 0) a, add32 (h.getD 1 0) b, add32 (h.getD 2 0) c, add32 (h.getD 3 0) d,
     add32 (h.getD 4 0) e, add32 (h.getD 5 0) f, add32 (h.getD 6 0) g, add32 (h.getD 7 0) hh]

/-- Split a buffer into 64-byte blocks.  Structural recursion on a fuel
bounded by the length (each step consumes 64 > 0 bytes, so `l.length` fuel
always suffices); this keeps the definition kernel-reducible. -/
def blocks64Aux : Nat → List Nat → List (List Nat)
  | 0, _ => []
  | _, [] => []
  | fuel + 1, l => l.take 64 :: blocks64Aux fuel (l.drop 64)

def blocks64 (l : List Nat) : List (List Nat) := blocks64Aux l.length l

def sha256 (msg : List Nat) : List Nat :=
  ((blocks64 (pad msg)).foldl compress H0).flatMap (beBytes 4)

/-- HMAC-SHA256 (RFC 2104), backing node's `crypto.createHmac('sha256', key)`. -/
def hmacSha256 (key msg : List Nat) : List Nat :=
  let k1 := if key.length > 64 then sha256 key else key
  let kp := k1 ++ List.replicate (64 - k1.length) 0
  sha256 ((kp.map (· ^^^ 0x5c)) ++ sha256 ((kp.map (· ^^^ 0x36)) ++ msg))

end Sha256

/-! ## AES (FIPS 197) inverse cipher and CBC mode with PKCS#7 padding,
backing node's `crypto.createDecipheriv('aes-128-cbc' / 'aes-256-cbc', k, iv)` -/

namespace Aes

/-- The AES S-box (FIPS 197 Fig. 7). -/
def sbox : List Nat := [
  0x63, 0x7c, 0x77, 0x7b, 0xf2, 0x6b, 0x6f, 0xc5, 0x30, 0x01, 0x67, 0x2b, 0xfe, 0xd7, 0xab, 0x76,
  0xca, 0x82, 0xc9, 0x7d, 0xfa, 0x59, 0x47, 0xf0, 0xad, 0xd4, 0xa2, 0xaf, 0x9c, 0xa4, 0x72, 0xc0,
  0xb7, 0xfd, 0x93, 0x26, 0x36, 0x3f, 0xf7, 0xcc, 0x34, 0xa5, 0xe5, 0xf1, 0x71, 0xd8, 0x31, 0x15,
  0x04, 0xc7, 0x23, 0xc3, 0x18, 0x96, 0x05, 0x9a, 0x07, 0x12, 0x80, 0xe2, 0xeb, 0x27, 0xb2, 0x75,
  0x09, 0x83, 0x2c, 0x1a, 0x1b, 0x6e, 0x5a, 0xa0, 0x52, 0x3b, 0xd6, 0xb3, 0x29, 0xe3, 0x2f, 0x84,
  0x53, 0xd1, 0x00, 0xed, 0x20, 0xfc, 0xb1, 0x5b, 0x6a, 0xcb, 0xbe, 0x39, 0x4a, 0x4c, 0x58, 0xcf,
  0xd0, 0xef, 0xaa, 0xfb, 0x43, 0x4d, 0x33, 0x85, 0x45, 0xf9, 0x02, 0x7f, 0x50, 0x3c, 0x9f, 0xa8,
  0x51, 0xa3, 0x40, 0x8f, 0x92, 0x9d, 0x38, 0xf5, 0xbc, 0xb6, 0xda, 0x21, 0x10, 0xff, 0xf3, 0xd2,
  0xcd, 0x0c, 0x13, 0xec, 0x5f, 0x97, 0x44, 0x17, 0xc4, 0xa7, 0x7e, 0x3d, 0x64, 0x5d, 0x19, 0x73,
  0x60, 0x81, 0x4f, 0xdc, 0x22, 0x2a, 0x90, 0x88, 0x46, 0xee, 0xb8, 0x14, 0xde, 0x5e, 0x0b, 0xdb,
  0xe0, 0x32, 0x3a, 0x0a, 0x49, 0x06, 0x24, 0x5c, 0xc2, 0xd3, 0xac, 0x62, 0x91, 0x95, 0xe4, 0x79,
  0xe7, 0xc8, 0x37, 0x6d, 0x8d, 0xd5, 0x4e, 0xa9, 0x6c, 0x56, 0xf4, 0xea, 0x65, 0x7a, 0xae, 0x08,
  0xba, 0x78, 0x25, 0x2e, 0x1c, 0xa6, 0xb4, 0xc6, 0xe8, 0xdd, 0x74, 0x1f, 0x4b, 0xbd, 0x8b, 0x8a,
  0x70, 0x3e, 0xb5, 0x66, 0x48, 0x03, 0xf6, 0x0e, 0x61, 0x35, 0x57, 0xb9, 0x86, 0xc1, 0x1d, 0x9e,
  0xe1, 0xf8, 0x98, 0x11, 0x69, 0xd9, 0x8e, 0x94, 0x9b, 0x1e, 0x87, 0xe9, 0xce, 0x55, 0x28, 0xdf,
  0x8c, 0xa1, 0x89, 0x0d, 0xbf, 0xe6, 0x42, 0x68, 0x41, 0x99, 0x2d, 0x0f, 0xb0, 0x54, 0xbb, 0x16]

/-- The inverse S-box (FIPS 197 Fig. 14). -/
def invSbox : List Nat := [
  0x52, 0x09, 0x6a, 0xd5, 0x30, 0x36, 0xa5, 0x38, 0xbf, 0x40, 0xa3, 0x9e, 0x81, 0xf3, 0xd7, 0xfb,
  0x7c, 0xe3, 0x39, 0x82, 0x9b, 0x2f, 0xff, 0x87, 0x34, 0x8e, 0x43, 0x44, 0xc4, 0xde, 0xe9, 0xcb,
  0x54, 0x7b, 0x94, 0x32, 0xa6, 0xc2, 0x23, 0x3d, 0xee, 0x4c, 0x95, 0x0b, 0x42, 0xfa, 0xc3, 0x4e,
  0x08, 0x2e, 0xa1, 0x66, 0x28, 0xd9, 0x24, 0xb2, 0x76, 0x5b, 0xa2, 0x49, 0x6d, 0x8b, 0xd1, 0x25,
  0x72, 0xf8, 0xf6, 0x64, 0x86, 0x68, 0x98, 0x16, 0xd4, 0xa4, 0x5c, 0xcc, 0x5d, 0x65, 0xb6, 0x92,
  0x6c, 0x70, 0x48, 0x50, 0xfd, 0xed, 0xb9, 0xda, 0x5e, 0x15, 0x46, 0x57, 0xa7, 0x8d, 0x9d, 0x84,
  0x90, 0xd8, 0xab, 0x00, 0x8c, 0xbc, 0xd3, 0x0a, 0xf7, 0xe4, 0x58, 0x05, 0xb8, 0xb3, 0x45, 0x06,
  0xd0, 0x2c, 0x1e, 0x8f, 0xca, 0x3f, 0x0f, 0x02, 0xc1, 0xaf, 0xbd, 0x03, 0x01, 0x13, 0x8a, 0x6b,
  0x3a, 0x91, 0x11, 0x41, 0x4f, 0x67, 0xdc, 0xea, 0x97, 0xf2, 0xcf, 0xce, 0xf0, 0xb4, 0xe6, 0x73,
  0x96, 0xac, 0x74, 0x22, 0xe7, 0xad, 0x35, 0x85, 0xe2, 0xf9, 0x37, 0xe8, 0x1c, 0x75, 0xdf, 0x6e,
  0x47, 0xf1, 0x1a, 0x71, 0x1d, 0x29, 0xc5, 0x89, 0x6f, 0xb7, 0x62, 0x0e, 0xaa, 0x18, 0xbe, 0x1b,
  0xfc, 0x56, 0x3e, 0x4b, 0xc6, 0xd2, 0x79, 0x20, 0x9a, 0xdb, 0xc0, 0xfe, 0x78, 0xcd, 0x5a, 0xf4,
  0x1f, 0xdd, 0xa8, 0x33, 0x88, 0x07, 0xc7, 0x31, 0xb1, 0x12, 0x10, 0x59, 0x27, 0x80, 0xec, 0x5f,
  0x60, 0x51, 0x7f, 0xa9, 0x19, 0xb5, 0x4a, 0x0d, 0x2d, 0xe5, 0x7a, 0x9f, 0x93, 0xc9, 0x9c, 0xef,
  0xa0, 0xe0, 0x3b, 0x4d, 0xae, 0x2a, 0xf5, 0xb0, 0xc8, 0xeb, 0xbb, 0x3c, 0x83, 0x53, 0x99, 0x61,
  0x17, 0x2b, 0x04, 0x7e, 0xba, 0x77, 0xd6, 0x26, 0xe1, 0x69, 0x14, 0x63, 0x55, 0x21, 0x0c, 0x7d]

def sb (b : Nat) : Nat := sbox.getD b 0

def isb (b : Nat) : Nat := invSbox.getD b 0

/-- Multiplication by `x` in GF(2^8) with the AES polynomial `0x11b`. -/
def xtime (b : Nat) : Nat := if b < 0x80 then b * 2 else (b * 2) ^^^ 0x11b

/-- Russian-peasant multiplication in GF(2^8), 8 rounds. -/
def gmulAux : Nat → Nat → Nat → Nat → Nat
  | 0, _, _, acc => acc
  | n + 1, a, b, acc => gmulAux n (xtime a) (b / 2) (if b % 2 = 1 then acc ^^^ a else acc)

def gmul (a b : Nat) : Nat := gmulAux 8 a b 0

def rcon : List Nat := [0x01, 0x02, 0x04, 0x08, 0x10, 0x20, 0x40, 0x80, 0x1b, 0x36]

def subWord (w : List Nat) : List Nat := w.map sb

def rotWord : List Nat → List Nat
  | a :: rest => rest ++ [a]
  | [] => []

def xorWord (a b : List Nat) : List Nat := a.zipWith (· ^^^ ·) b

/-- Key-expansion loop (FIPS 197 §5.2), producing 4-byte words. -/
def expandLoop (nk : Nat) : Nat → List (List Nat) → List (List Nat)
  | 0, ws => ws
  | n + 1, ws =>
    let i := ws.length
    let prev := ws.getD (i - 1) []
    let temp :=
      if i % nk = 0 then
        xorWord (subWord (rotWord prev)) [rcon.getD (i / nk - 1) 0, 0, 0, 0]
      else if 6 < nk ∧ i % nk = 4 then subWord prev
      else prev
    expandLoop nk n (ws ++ [xorWord (ws.getD (i - nk) []) temp])

/-- Round keys as 16-byte lists, one per round, for key length `4 * nk`
bytes and `nr` rounds. -/
def roundKeys (nk nr : Nat) (key : List Nat) : List (List Nat) :=
  let ws := expandLoop nk (4 * (nr + 1) - nk)
    ((List.range nk).map (fun i => (key.drop (4 * i)).take 4))
  (List.range (nr + 1)).map (fun r =>
    (ws.getD (4 * r) []) ++ (ws.getD (4 * r + 1) []) ++
    (ws.getD (4 * r + 2) []) ++ (ws.getD (4 * r + 3) []))

def addRoundKey (rk st : List Nat) : List Nat := st.zipWith (· ^^^ ·) rk

def invSubBytes (st : List Nat) : List Nat := st.map isb

/-- Inverse ShiftRows on the column-major 16-byte state. -/
def invShiftRows (st : List Nat) : List Nat :=
  (List.range 16).map (fun i => st.getD (i % 4 + 4 * ((i / 4 + 4 - i % 4) % 4)) 0)

def invMixColumn (a : List Nat) : List Nat :=
  [gmul (a.getD 0 0) 14 ^^^ gmul (a.getD 1 0) 11 ^^^ gmul (a.getD 2 0) 13 ^^^ gmul (a.getD 3 0) 9,
   gmul (a.getD 0 0) 9 ^^^ gmul (a.getD 1 0) 14 ^^^ gmul (a.getD 2 0) 11 ^^^ gmul (a.getD 3 0) 13,
   gmul (a.getD 0 0) 13 ^^^ gmul (a.getD 1 0) 9 ^^^ gmul (a.getD 2 0) 14 ^^^ gmul (a.getD 3 0) 11,
   gmul (a.getD 0 0) 11 ^^^ gmul (a.getD 1 0) 13 ^^^ gmul (a.getD 2 0) 9 ^^^ gmul (a.getD 3 0) 14]

def invMixColumns (st : List Nat) : List Nat :=
  (List.range 4).flatMap (fun c => invMixColumn ((st.drop (4 * c)).take 4))

/-- The middle rounds `r, r-1, ..., 1` of the inverse cipher. -/
def invRounds (rks : List (List Nat)) : Nat → List Nat → List Nat
  | 0, st => st
  | r + 1, st =>
    invRounds rks r
      (invMixColumns (addRoundKey (rks.getD (r + 1) []) (invSubBytes (invShiftRows st))))

/-- The full inverse cipher (FIPS 197 §5.3) on one 16-byte block. -/
def invCipher (rks : List (List Nat)) (nr : Nat) (ct : List Nat) : List Nat :=
  let st := invRounds rks (nr - 1) (addRoundKey (rks.getD nr []) ct)
  addRoundKey (rks.getD 0 []) (invSubBytes (invShiftRows st))

def aes128DecryptBlock (key block : List Nat) : List Nat :=
  invCipher (roundKeys 4 10 key) 10 block

def aes256DecryptBlock (key block : List Nat) : List Nat :=
  invCipher (roundKeys 8 14 key) 14 block

/-- CBC chaining of the block decryptor over a ciphertext that is a
multiple of 16 bytes (fuel-structural, fuel bounded by the length). -/
def cbcDecAux (dec : List Nat → List Nat → List Nat) (key : List Nat) :
    Nat → List Nat → List Nat → List Nat
  | 0, _, _ => []
  | _, _, [] => []
  | fuel + 1, prev, ct =>
    (dec key (ct.take 16)).zipWith (· ^^^ ·) prev ++
      cbcDecAux dec key fuel (ct.take 16) (ct.drop 16)

/-- PKCS#7 unpadding; `none` models the padding error raised by
`decipher.final()`. -/
def pkcs7Unpad (l : List Nat) : Option (List Nat) :=
  let n := l.getD (l.length - 1) 0
  if n = 0 ∨ 16 < n ∨ l.length < n then none
  else if (l.drop (l.length - n)).all (· = n) then some (l.take (l.length - n))
  else none

/-- CBC-mode decryption with automatic PKCS#7 unpadding, as performed by
`decipher.update(ct)` + `decipher.final()`: an empty or misaligned
ciphertext, or bad padding, raises (modelled as `none`). -/
def aesCbcDecrypt (dec : List Nat → List Nat → List Nat) (key iv ct : List Nat) :
    Option (List Nat) :=
  if ct.length = 0 ∨ ct.length % 16 ≠ 0 then none
  else pkcs7Unpad (cbcDecAux dec key ct.length iv ct)

end Aes

/-! ## Base64 decoding as performed by node's `Buffer.from(str, 'base64')`

Node's decoder is lenient: it accepts both the standard and the URL-safe
alphabet, ignores every character outside the alphabet (including `=`
padding and whitespace), and drops a lone trailing sextet. -/

def b64CharVal (c : Char) : Option Nat :=
  if 'A' ≤ c ∧ c ≤ 'Z' then some (c.toNat - 65)
  else if 'a' ≤ c ∧ c ≤ 'z' then some (c.toNat - 97 + 26)
  else if '0' ≤ c ∧ c ≤ '9' then some (c.toNat - 48 + 52)
  else if c = '+' ∨ c = '-' then some 62
  else if c = '/' ∨ c = '_' then some 63
  else none

/-- Reassemble bytes from the stream of 6-bit values. -/
def b64Quads : List Nat → List Nat
  | a :: b :: c :: d :: rest =>
    (a * 4 + b / 16) :: ((b % 16) * 16 + c / 4) :: ((c % 4) * 64 + d) :: b64Quads rest
  | [a, b] => [a * 4 + b / 16]
  | [a, b, c] => [a * 4 + b / 16, (b % 16) * 16 + c / 4]
  | _ => []

def nodeBase64Decode (s : String) : List Nat := b64Quads (s.toList.filterMap b64CharVal)

/-- The bytes of a `Buffer` viewed as a UTF-8 string, as in
`tokenBuffer.toString('utf-8')`.  ASCII bytes map to themselves; every byte
at or above `0x80` is mapped to U+FFFD.  (A valid multi-byte sequence really
decodes to a non-ASCII code point rather than U+FFFD, but every such
character is equally invisible to the base64 alphabet filter, which is the
only consumer of this string.) -/
def bytesToUtf8String (data : List Nat) : String :=
  ⟨data.map (fun b => if b < 0x80 then Char.ofNat b else '�')⟩

/-! ## DecryptionService (the typed-error variant of `decryptDataset`,
`decryptSimple`, `decrypt` and `base64UrlDecode`; spec §9 designates this
throwing variant as canonical) -/

namespace DecryptionService

open Sha256 Aes

/-- `base64UrlDecode`: replace the URL-safe characters, pad with `=` to a
multiple of 4, then `Buffer.from(base64, 'base64')`. -/
def base64UrlDecode (str : String) : List Nat :=
  let b64 := str.toList.map (fun c => if c = '-' then '+' else if c = '_' then '/' else c)
  let padded := b64 ++ List.replicate ((4 - b64.length % 4) % 4) '='
  b64Quads (padded.filterMap b64CharVal)

/-- One constructor per distinct `throw new Error(...)` site of
`decryptDataset`; the last three are the spec's AuthenticationFailed /
DecryptionFailed / KeyLengthInvalid classes and the first two its
MalformedToken class. -/
inductive DecodeError where
  | tooShort
  | invalidVersion
  | invalidKeyLength
  | authenticationFailed
  | decryptionFailed
deriving DecidableEq, Repr

/-- Operations `decryptDataset` performs on its way through a token, in
order, used to state ordering properties. -/
inductive DecOp where
  | b64TokenDecode
  | hmacCompute
  | blockDecrypt
deriving DecidableEq, Repr

/-- The base64-detection step of `decryptDataset`: when the buffer is
nonempty and its first byte is not `0x80`, attempt one base64url decode of
the buffer's UTF-8 string form and switch to the decoded form iff it is
nonempty and begins with `0x80`. -/
def effectiveToken (data : List Nat) : List Nat × List DecOp :=
  if 0 < data.length ∧ data.getD 0 0 ≠ 0x80 then
    let decoded := base64UrlDecode (bytesToUtf8String data)
    if 0 < decoded.length ∧ decoded.getD 0 0 = 0x80 then (decoded, [DecOp.b64TokenDecode])
    else (data, [DecOp.b64TokenDecode])
  else (data, [])

/-- The Fernet validation/decryption pipeline applied to the (possibly
base64-decoded) token buffer: length check, version check, component
extraction (the 8 timestamp bytes are extracted but never used), key decode
and length check, HMAC-SHA256 tag verification, AES-128-CBC decryption. -/
def fernetDecodeCore (tokenBuffer : List Nat) (key : String) :
    Except DecodeError (List Nat) × List DecOp :=
  if tokenBuffer.length < 57 then (.error .tooShort, [])
  else if tokenBuffer.getD 0 0 ≠ 0x80 then (.error .invalidVersion, [])
  else
    let iv := (tokenBuffer.drop 9).take 16
    let ciphertext := (tokenBuffer.take (tokenBuffer.length - 32)).drop 25
    let hmacTag := tokenBuffer.drop (tokenBuffer.length - 32)
    let keyBuffer := base64UrlDecode key
    if keyBuffer.length ≠ 32 then (.error .invalidKeyLength, [])
    else
      let signingKey := keyBuffer.take 16
      let encryptionKey := (keyBuffer.drop 16).take 16
      let dataToVerify := tokenBuffer.take (tokenBuffer.length - 32)
      let computedHmac := hmacSha256 signingKey dataToVerify
      if hmacTag ≠ computedHmac then (.error .authenticationFailed, [.hmacCompute])
      else
        match aesCbcDecrypt aes128DecryptBlock encryptionKey iv ciphertext with
        | none => (.error .decryptionFailed, [.hmacCompute, .blockDecrypt])
        | some pt => (.ok pt, [.hmacCompute, .blockDecrypt])

/-- `decryptDataset`: base64 detection followed by the Fernet pipeline. -/
def decryptDataset (encryptedData : List Nat) (decryptionKey : String) :
    Except DecodeError (List Nat) × List DecOp :=
  let p := effectiveToken encryptedData
  let q := fernetDecodeCore p.1 decryptionKey
  (q.1, p.2 ++ q.2)

/-- Failure modes of `decryptSimple`: `createDecipheriv` rejecting a short
IV, or `update`/`final` rejecting the ciphertext (misalignment or bad
padding). -/
inductive SimpleError where
  | invalidIvLength
  | decryptFailed
deriving DecidableEq, Repr

/-- `decryptSimple`: key = SHA-256 of the base64-decoded key string, IV =
first 16 bytes of the payload, AES-256-CBC over the rest. -/
def decryptSimple (encryptedData : List Nat) (decryptionKey : String) :
    Except SimpleError (List Nat) :=
  let keyBuffer := nodeBase64Decode decryptionKey
  let hashedKey := sha256 keyBuffer
  let iv := encryptedData.take 16
  let ciphertext := encryptedData.drop 16
  if iv.length ≠ 16 then .error .invalidIvLength
  else
    match aesCbcDecrypt aes256DecryptBlock hashedKey iv ciphertext with
    | none => .error .decryptFailed
    | some pt => .ok pt

/-- The two decoder strategies of `decrypt`, in the order they are tried. -/
inductive Attempt where
  | primaryFernet
  | fallbackSimple
deriving DecidableEq, Repr

/-- `decrypt`: try `decryptDataset`; on failure try `decryptSimple`; if
both fail, re-throw the original Fernet error. -/
def decrypt (encryptedData : List Nat) (decryptionKey : String) :
    Except DecodeError (List Nat) × List Attempt :=
  match (decryptDataset encryptedData decryptionKey).1 with
  | .ok pt => (.ok pt, [.primaryFernet])
  | .error fernetError =>
    match decryptSimple encryptedData decryptionKey with
    | .ok pt => (.ok pt, [.primaryFernet, .fallbackSimple])
    | .error _ => (.error fernetError, [.primaryFernet, .fallbackSimple])

end DecryptionService

/-! ## InMemoryDatasetManager

The JS `Map<string, DecryptedDataset>` is modelled as an association list
with `Map` semantics (`set` replaces in place or appends, `delete` removes,
`size` is the length); methods that mutate `this.datasets` return the new
store.  `Date.now()` is passed in explicitly as `now`. -/

namespace InMemoryDatasetManager

structure DecryptedDataset where
  tokenId : String
  content : List Nat
  filename : String
  decryptedAt : Nat
  expiryTimestamp : Nat
deriving DecidableEq, Repr

abbrev Store := List (String × DecryptedDataset)

def mapGet (m : Store) (k : String) : Option DecryptedDataset :=
  (m.find? (fun e => e.1 == k)).map (·.2)

def mapSet (m : Store) (k : String) (v : DecryptedDataset) : Store :=
  if m.any (fun e => e.1 == k) then m.map (fun e => if e.1 == k then (k, v) else e)
  else m ++ [(k, v)]

def mapDelete (m : Store) (k : String) : Store := m.filter (fun e => !(e.1 == k))

/-- `storeDataset`: `this.datasets.set(dataset.tokenId, dataset)`. -/
def storeDataset (m : Store) (dataset : DecryptedDataset) : Store :=
  mapSet m dataset.tokenId dataset

/-- `isExpired`: `Date.now() > dataset.expiryTimestamp`. -/
def isExpired (now : Nat) (dataset : DecryptedDataset) : Bool :=
  dataset.expiryTimestamp < now

/-- `removeDataset`: `this.datasets.delete(tokenId)`, returning whether an
entry existed. -/
def removeDataset (m : Store) (tokenId : String) : Bool × Store :=
  (m.any (fun e => e.1 == tokenId), mapDelete m tokenId)

/-- `getDataset`: a `Map` lookup, then the read-time expiry check which
evicts and returns `null` when the entry has expired. -/
def getDataset (m : Store) (tokenId : String) (now : Nat) :
    Option DecryptedDataset × Store :=
  match mapGet m tokenId with
  | none => (none, m)
  | some dataset =>
    if isExpired now dataset then (none, (removeDataset m tokenId).2)
    else (some dataset, m)

/-- `getDatasetContent`: `getDataset` projected to the content bytes. -/
def getDatasetContent (m : Store) (tokenId : String) (now : Nat) :
    Option (List Nat) × Store :=
  let p := getDataset m tokenId now
  (p.1.map (·.content), p.2)

/-- `hasDataset`: presence plus non-expiry, without eviction. -/
def hasDataset (m : Store) (tokenId : String) (now : Nat) : Bool :=
  match mapGet m tokenId with
  | none => false
  | some dataset => !isExpired now dataset

/-- `clearAll`: `this.datasets.clear()`. -/
def clearAll (_m : Store) : Store := []

/-- The `Omit<DecryptedDataset, 'content'>` record returned by
`getDatasetInfo`. -/
structure DatasetInfo where
  tokenId : String
  filename : String
  decryptedAt : Nat
  expiryTimestamp : Nat
deriving DecidableEq, Repr

/-- `getDatasetInfo`: `getDataset` projected to the metadata record. -/
def getDatasetInfo (m : Store) (tokenId : String) (now : Nat) :
    Option DatasetInfo × Store :=
  let p := getDataset m tokenId now
  match p.1 with
  | none => (none, p.2)
  | some d => (some ⟨d.tokenId, d.filename, d.decryptedAt, d.expiryTimestamp⟩, p.2)

/-- `cleanupExpiredDatasets` (the 5-minute sweep body): delete every entry
with `expiryTimestamp < now`. -/
def cleanupExpiredDatasets (m : Store) (now : Nat) : Store :=
  m.filter (fun e => !(e.2.expiryTimestamp < now : Bool))

/-- `getMemoryStats` (sizes kept in raw bytes; the source additionally
divides by 1024², which is presentation only). `expiresIn` is
`Math.max(0, expiryTimestamp - now)`, which is `Nat` subtraction. -/
structure MemoryStats where
  datasetCount : Nat
  totalSizeBytes : Nat
  perDataset : List (String × String × Nat × Nat)
deriving DecidableEq, Repr

def getMemoryStats (m : Store) (now : Nat) : MemoryStats :=
  { datasetCount := m.length
    totalSizeBytes := (m.map (fun e => e.2.content.length)).sum
    perDataset := m.map (fun e =>
      (e.2.tokenId, e.2.filename, e.2.content.length, e.2.expiryTimestamp - now)) }

end InMemoryDatasetManager

/-! ## DatasetFileSystemProvider

`vscode.Uri` is modelled by its parsed components; `createUri` builds
`quantifyx://tokenId/filename`, whose authority component is the token id
and whose path is `/filename`.  Thrown `vscode.FileSystemError`s become
`Except.error` values, and the provider threads the (shared, mutable)
dataset-manager store. -/

namespace DatasetFileSystemProvider

open InMemoryDatasetManager

structure Uri where
  scheme : String
  authority : String
  path : String
deriving DecidableEq, Repr

inductive FsError where
  | fileNotFound
  | noPermissions
deriving DecidableEq, Repr

inductive FileType where
  | file
  | directory
deriving DecidableEq, Repr

structure FileStat where
  ftype : FileType
  ctime : Nat
  mtime : Nat
  size : Nat
deriving DecidableEq, Repr

/-- `extractTokenId`: `uri.authority || null` — the empty authority is
falsy in JS and becomes `null`. -/
def extractTokenId (uri : Uri) : Option String :=
  if uri.authority = "" then none else some uri.authority

/-- `createUri(tokenId, filename)`: parse `quantifyx://tokenId/filename`. -/
def createUri (tokenId filename : String) : Uri :=
  { scheme := "quantifyx", authority := tokenId, path := "/" ++ filename }

/-- `stat`: token id from the URI authority, then metadata and content from
the manager; any miss throws `FileNotFound`. -/
def stat (m : Store) (now : Nat) (uri : Uri) : Except FsError FileStat × Store :=
  match extractTokenId uri with
  | none => (.error .fileNotFound, m)
  | some tokenId =>
    let p := getDatasetInfo m tokenId now
    match p.1 with
    | none => (.error .fileNotFound, p.2)
    | some info =>
      let q := getDatasetContent p.2 tokenId now
      (.ok { ftype := .file, ctime := info.decryptedAt, mtime := info.decryptedAt,
             size := (q.1.map (·.length)).getD 0 }, q.2)

/-- `readFile`: token id from the URI authority, then the content bytes. -/
def readFile (m : Store) (now : Nat) (uri : Uri) : Except FsError (List Nat) × Store :=
  match extractTokenId uri with
  | none => (.error .fileNotFound, m)
  | some tokenId =>
    let p := getDatasetContent m tokenId now
    match p.1 with
    | none => (.error .fileNotFound, p.2)
    | some content => (.ok content, p.2)

/-- `readDirectory`: always empty. -/
def readDirectory (_uri : Uri) : List (String × FileType) := []

/-- `writeFile`: unconditionally throws `NoPermissions`. -/
def writeFile (m : Store) (_uri : Uri) (_content : List Nat) (_create _overwrite : Bool) :
    Except FsError Unit × Store :=
  (.error .noPermissions, m)

/-- `delete`: unconditionally throws `NoPermissions`. -/
def delete (m : Store) (_uri : Uri) : Except FsError Unit × Store :=
  (.error .noPermissions, m)

/-- `rename`: unconditionally throws `NoPermissions`. -/
def rename (m : Store) (_oldUri _newUri : Uri) (_overwrite : Bool) :
    Except FsError Unit × Store :=
  (.error .noPermissions, m)

/-- `createDirectory`: unconditionally throws `NoPermissions`. -/
def createDirectory (m : Store) (_uri : Uri) : Except FsError Unit × Store :=
  (.error .noPermissions, m)

end DatasetFileSystemProvider

/-! ## WalletAuthService

The callback handler and the `authenticate` control flow are embedded as
pure functions.  The ethers.js primitives are passed in explicitly:
`recover` models `ethers.verifyMessage` (returning `none` when it throws),
and the outcomes of the asynchronous steps (`findAvailablePort`,
`startAuthServer`, `open`, and the wait for callback / timeout /
cancellation) are supplied as an environment record so that every
success/throw combination of the real control flow is covered. -/

namespace WalletAuthService

structure AuthenticationChallenge where
  nonce : String
  timestamp : Nat
  expiresAt : Nat
deriving DecidableEq, Repr

def authTimeoutMs : Nat := 120000

/-- The message template signed by the wallet, embedding the nonce. -/
def authMessage (nonce : String) : String :=
  "QuantifyX Wallet Verification\n\nNonce: " ++ nonce ++
    "\n\nSign this message to prove you own this wallet.\n\nThis signature cannot access your funds."

/-- `verifySignature`: recover the signer of the canonical message and
compare with the claimed address case-insensitively; any recovery error
yields `false`. -/
def verifySignature (recover : String → String → Option String)
    (address signature nonce : String) : Bool :=
  match recover (authMessage nonce) signature with
  | none => false
  | some recoveredAddress => recoveredAddress.toLower == address.toLower

/-- JSON body of `POST /callback`; an absent field arrives as the falsy
`undefined`, modelled (like the empty string) by `""`. -/
structure CallbackBody where
  address : String
  signature : String
  nonce : String
deriving DecidableEq, Repr

/-- The distinct HTTP responses of the callback handler. -/
inductive CallbackResponse where
  | missingFields
  | invalidNonce
  | timeoutExpired
  | invalidSignature
  | success
deriving DecidableEq, Repr

/-- The `POST /callback` handler: field presence check, nonce match
against the single outstanding challenge (`nonce !== authChallenge?.nonce`,
where an absent challenge yields `undefined` and never matches), expiry
check (`Date.now() > (authChallenge?.expiresAt || 0)`), signature
verification, then resolution of the pending authentication if a resolver
is registered.  Returns the HTTP response together with the
`(walletAddress, signature)` resolution, if any. -/
def handleCallback (recover : String → String → Option String)
    (authChallenge : Option AuthenticationChallenge) (hasResolver : Bool)
    (now : Nat) (body : CallbackBody) :
    CallbackResponse × Option (String × String) :=
  if body.address = "" ∨ body.signature = "" ∨ body.nonce = "" then
    (.missingFields, none)
  else if authChallenge.map (·.nonce) ≠ some body.nonce then
    (.invalidNonce, none)
  else if (authChallenge.map (·.expiresAt)).getD 0 < now then
    (.timeoutExpired, none)
  else if !verifySignature recover body.address body.signature body.nonce then
    (.invalidSignature, none)
  else
    (.success, if hasResolver then some (body.address, body.signature) else none)

/-- The transient state fields of the service. -/
structure ServiceState where
  server : Option Nat
  authChallenge : Option AuthenticationChallenge
  authResolve : Bool
  authReject : Bool
deriving DecidableEq, Repr

/-- `cleanup`: close the server if any and null every transient field. -/
def cleanup (_st : ServiceState) : ServiceState :=
  { server := none, authChallenge := none, authResolve := false, authReject := false }

structure WalletAuthResult where
  success : Bool
  walletAddress : Option String
  signature : Option String
  error : Option String
deriving DecidableEq, Repr

/-- Environment for one `authenticate` run: `Date.now()` at entry, the
generated nonce, and the outcome (value or thrown error) of each awaited
step. -/
structure AuthEnv where
  now : Nat
  nonce : String
  findPort : Except String Nat
  startServer : Nat → Except String Unit
  openBrowser : Except String Unit
  waitOutcome : Except String WalletAuthResult

/-- `authenticate`: cleanup, issue challenge, find port, start server, open
browser, await the callback; a throw anywhere is caught and turned into a
failure result; the `finally` block runs `cleanup` on every path. -/
def authenticate (env : AuthEnv) (st0 : ServiceState) : WalletAuthResult × ServiceState :=
  let st1 := cleanup st0
  let challenge : AuthenticationChallenge := ⟨env.nonce, env.now, env.now + authTimeoutMs⟩
  let st2 := { st1 with authChallenge := some challenge }
  let tried : Except String WalletAuthResult × ServiceState :=
    match env.findPort with
    | .error e => (.error e, st2)
    | .ok port =>
      let st3 := { st2 with server := some port }
      match env.startServer port with
      | .error e => (.error e, st3)
      | .ok _ =>
        match env.openBrowser with
        | .error e => (.error e, st3)
        | .ok _ =>
          let st4 := { st3 with authResolve := true, authReject := true }
          match env.waitOutcome with
          | .error e => (.error e, st4)
          | .ok r => (.ok r, st4)
  let result := match tried.1 with
    | .ok r => r
    | .error e => { success := false, walletAddress := none, signature := none, error := some e }
  (result, cleanup tried.2)

end WalletAuthService

/-! ## Concrete data used by witnesses and counterexamples

`demoToken` is a well-formed Fernet token (version `0x80`, timestamp, IV,
four ciphertext blocks, HMAC-SHA256 tag) for the key material `demoKey`;
`demoTokenB64` is its base64url string form, as bytes. -/

def demoKey : String := "AAECAwQFBgcICQoLDA0ODxAREhMUFRYXGBkaGxwdHh8="

def demoToken : List Nat := [
  128, 0, 0, 0, 0, 101, 0, 0, 0, 0, 7, 14, 21, 28, 35, 42, 49, 56, 63, 70, 77, 84, 91, 98, 105,
  243, 148, 148, 223, 71, 195, 254, 106, 173, 112, 183, 64, 223, 179, 128, 154, 82, 201, 250,
  109, 210, 34, 109, 43, 176, 181, 151, 105, 24, 128, 238, 105, 165, 54, 150, 208, 26, 110, 31,
  175, 237, 126, 184, 98, 26, 236, 186, 164, 210, 252, 118, 51, 206, 63, 142, 188, 175, 111, 90,
  85, 103, 36, 39, 157]

def demoTokenB64 : List Nat := [
  103, 65, 65, 65, 65, 65, 66, 108, 65, 65, 65, 65, 65, 65, 99, 79, 70, 82, 119, 106, 75, 106,
  69, 52, 80, 48, 90, 78, 86, 70, 116, 105, 97, 102, 79, 85, 108, 78, 57, 72, 119, 95, 53, 113,
  114, 88, 67, 51, 81, 78, 45, 122, 103, 74, 112, 83, 121, 102, 112, 116, 48, 105, 74, 116, 75,
  55, 67, 49, 108, 50, 107, 89, 103, 79, 53, 112, 112, 84, 97, 87, 48, 66, 112, 117, 72, 54, 95,
  116, 102, 114, 104, 105, 71, 117, 121, 54, 112, 78, 76, 56, 100, 106, 80, 79, 80, 52, 54, 56,
  114, 50, 57, 97, 86, 87, 99, 107, 74, 53, 48, 61]

/-- A 43-character base64url string decoding to 32 zero bytes: a key of the
correct length whose signing half does not authenticate `demoToken`. -/
def zeroKey43 : String := "AAAAAAAAAAAAAAAAAAAAAAAAAAAAAAAAAAAAAAAAAAA"

def demoDataset : InMemoryDatasetManager.DecryptedDataset :=
  { tokenId := "7", content := [1, 2, 3], filename := "data.csv",
    decryptedAt := 0, expiryTimestamp := 100 }

def demoStore : InMemoryDatasetManager.Store := [("7", demoDataset)]

/-- A live entry stored under the empty-string identifier. -/
def emptyIdDataset : InMemoryDatasetManager.DecryptedDataset :=
  { tokenId := "", content := [9, 9], filename := "data.csv",
    decryptedAt := 0, expiryTimestamp := 100 }

def emptyIdStore : InMemoryDatasetManager.Store := [("", emptyIdDataset)]

/-- A concrete recovery oracle for the C5 witness: signature `"sig1"`
recovers to the address `"0xabcd"`, everything else fails to recover. -/
def demoRecover : String → String → Option String :=
  fun _message signature => if signature = "sig1" then some "0xabcd" else none

def demoChallenge : WalletAuthService.AuthenticationChallenge :=
  { nonce := "n1", timestamp := 0, expiresAt := 120000 }

def staleChallenge : WalletAuthService.AuthenticationChallenge :=
  { nonce := "n2", timestamp := 10, expiresAt := 120010 }

/-! ## Store lemmas -/

namespace InMemoryDatasetManager

theorem mapGet_ne_none_iff (m : Store) (id : String) :
    mapGet m id ≠ none ↔ m.any (fun e => e.1 == id) = true := by
  simp [mapGet, List.any_eq_true, ← List.find?_isSome, Option.isSome_iff_ne_none]

theorem mapGet_eq_none_iff (m : Store) (id : String) :
    mapGet m id = none ↔ ∀ e ∈ m, ¬(e.1 == id) = true := by
  simp [mapGet, List.find?_eq_none]

theorem any_mapDelete (m : Store) (id : String) :
    (mapDelete m id).any (fun e => e.1 == id) = false := by
  simp only [mapDelete, List.any_eq_false]
  intro e he
  have := (List.mem_filter.mp he).2
  simp_all

theorem mapGet_filter_none (m : Store) (p : String × DecryptedDataset → Bool) (id : String)
    (h : mapGet m id = none) : mapGet (m.filter p) id = none := by
  rw [mapGet_eq_none_iff] at h ⊢
  intro e he
  exact h e (List.mem_filter.mp he).1

theorem mapGet_cons_pos (e : String × DecryptedDataset) (t : Store) (id : String)
    (he : (e.1 == id) = true) : mapGet (e :: t) id = some e.2 := by
  unfold mapGet
  rw [List.find?_cons_of_pos (p := fun x => x.1 == id) t he]
  rfl

theorem mapGet_cons_neg (e : String × DecryptedDataset) (t : Store) (id : String)
    (he : ¬(e.1 == id) = true) : mapGet (e :: t) id = mapGet t id := by
  unfold mapGet
  rw [List.find?_cons_of_neg (p := fun x => x.1 == id) t he]

theorem mapGet_filter_some (m : Store) (p : String × DecryptedDataset → Bool) (id : String)
    (ds : DecryptedDataset) (hwf : (m.map Prod.fst).Nodup) (h : mapGet m id = some ds) :
    mapGet (m.filter p) id = if p (id, ds) then some ds else none := by
  induction m with
  | nil => simp [mapGet] at h
  | cons e t ih =>
    have hwf2 := (List.nodup_cons.mp hwf)
    by_cases he : (e.1 == id) = true
    · have he1 : e.1 = id := by simpa using he
      have hds : e.2 = ds := by
        have h2 := h
        rw [mapGet_cons_pos e t id he] at h2
        exact Option.some.inj h2
      have hpair : e = (id, ds) := by
        cases e
        simp_all
      have htn : mapGet t id = none := by
        rw [mapGet_eq_none_iff]
        intro x hx hbeq
        exact hwf2.1 (by
          have hx1 : x.1 = id := by simpa using hbeq
          rw [← he1] at hx1
          exact hx1 ▸ List.mem_map_of_mem Prod.fst hx)
      by_cases hp : p e = true
      · rw [List.filter_cons_of_pos hp, mapGet_cons_pos _ _ _ he, hds,
          if_pos (hpair ▸ hp)]
      · rw [List.filter_cons_of_neg (by simpa using hp), mapGet_filter_none t p id htn,
          if_neg (by rw [← hpair]; simpa using hp)]
    · have ht : mapGet t id = some ds := by
        have h2 := h
        rw [mapGet_cons_neg e t id he] at h2
        exact h2
      have tail := ih hwf2.2 ht
      by_cases hp : p e = true
      · rw [List.filter_cons_of_pos hp, mapGet_cons_neg _ _ _ he]
        exact tail
      · rw [List.filter_cons_of_neg (by simpa using hp)]
        exact tail

end InMemoryDatasetManager

/-! ## Claim theorems -/

open InMemoryDatasetManager DatasetFileSystemProvider DecryptionService WalletAuthService

/-- C2: for every store state and arguments, the virtual-filesystem
mutation operations `writeFile`, `delete`, `rename` and `createDirectory`
fail with `NoPermissions` and return the store unchanged. -/
theorem c2_virtualFs_mutations_denied (m : Store) (uri oldUri newUri : Uri)
    (content : List Nat) (create overwrite ow : Bool) :
    writeFile m uri content create overwrite = (.error .noPermissions, m) ∧
    DatasetFileSystemProvider.delete m uri = (.error .noPermissions, m) ∧
    rename m oldUri newUri ow = (.error .noPermissions, m) ∧
    createDirectory m uri = (.error .noPermissions, m) :=
  ⟨rfl, rfl, rfl, rfl⟩

/-- C6: whatever the outcome of an `authenticate` call — a verified result,
any rejection delivered through the wait, or a throw from any intermediate
step — the server is closed and the challenge and pending-resolution state
are cleared when the call completes. -/
theorem c6_authenticate_always_cleans_up (env : AuthEnv) (st0 : ServiceState) :
    (authenticate env st0).2.server = none ∧
    (authenticate env st0).2.authChallenge = none ∧
    (authenticate env st0).2.authResolve = false ∧
    (authenticate env st0).2.authReject = false :=
  ⟨rfl, rfl, rfl, rfl⟩

/-- C9: `removeDataset` twice on a present identifier returns `true` then
`false`, and `clearAll` followed by `getMemoryStats` reports a count of 0. -/
theorem c9_remove_idempotence_and_clear (m : Store) (id : String) (now : Nat)
    (h : mapGet m id ≠ none) :
    (removeDataset m id).1 = true ∧
    (removeDataset (removeDataset m id).2 id).1 = false ∧
    (getMemoryStats (clearAll m) now).datasetCount = 0 := by
  refine ⟨?_, ?_, rfl⟩
  · exact (mapGet_ne_none_iff m id).mp h
  · exact any_mapDelete m id

/-- C9 witness at the one-entry demo store. -/
theorem c9_witness :
    (removeDataset demoStore "7").1 = true ∧
    (removeDataset (removeDataset demoStore "7").2 "7").1 = false ∧
    (getMemoryStats (clearAll demoStore) 0).datasetCount = 0 :=
  c9_remove_idempotence_and_clear demoStore "7" 0 (by decide)

/-- C3 counterexample: the claim asserts `NotFound` for every read at time
`≥ E`, but at the boundary `now = E` (the code checks `now > expiry`)
`getDataset` still returns the stored secret. -/
theorem c3_counterexample :
    demoDataset.expiryTimestamp = 100 ∧
    mapGet demoStore "7" = some demoDataset ∧
    (getDataset demoStore "7" 100).1 = some demoDataset ∧
    (getDataset demoStore "7" 100).1 ≠ none := by
  refine ⟨rfl, rfl, rfl, ?_⟩
  simp [getDataset, mapGet, demoStore, isExpired, demoDataset]

/-- C3 (amended): a stored secret with expiry `E` is returned by every read
at time `≤ E`; every read at time `> E` returns `NotFound` and evicts the
entry; and, over a duplicate-free store, a sweep run at any time `t ≤ now`
between the reads does not change the value any read observes. -/
theorem c3_get_expiry_boundary (m : Store) (id : String) (ds : DecryptedDataset) (now : Nat)
    (h : mapGet m id = some ds) :
    (now ≤ ds.expiryTimestamp → getDataset m id now = (some ds, m)) ∧
    (ds.expiryTimestamp < now → getDataset m id now = (none, mapDelete m id)) ∧
    (∀ t, t ≤ now → (m.map Prod.fst).Nodup →
      (getDataset (cleanupExpiredDatasets m t) id now).1 = (getDataset m id now).1) := by
  refine ⟨?_, ?_, ?_⟩
  · intro hle
    simp [getDataset, h, isExpired, Nat.not_lt.mpr hle]
  · intro hlt
    simp [getDataset, h, isExpired, hlt, removeDataset]
  · intro t ht hwf
    have := mapGet_filter_some m (fun e => !(e.2.expiryTimestamp < t : Bool)) id ds hwf h
    by_cases hexp : ds.expiryTimestamp < t
    · have hnone : mapGet (cleanupExpiredDatasets m t) id = none := by
        rw [cleanupExpiredDatasets, this]
        simp [hexp]
      have hnow : isExpired now ds = true := by
        simp only [isExpired, decide_eq_true_eq]
        omega
      simp [getDataset, hnone, h, hnow]
    · have hsome : mapGet (cleanupExpiredDatasets m t) id = some ds := by
        rw [cleanupExpiredDatasets, this]
        simp [hexp]
      by_cases hie : isExpired now ds = true <;> simp [getDataset, hsome, h, hie]

/-- C10 counterexample: the identifier `""` can hold a live entry, yet
`read`/`stat` on its address fail with `FileNotFound`, because the empty
URI authority is falsy in JS and `extractTokenId` maps it to `null`. -/
theorem c10_counterexample :
    mapGet emptyIdStore "" = some emptyIdDataset ∧
    isExpired 5 emptyIdDataset = false ∧
    (readFile emptyIdStore 5 (createUri "" "data.csv")).1 = .error .fileNotFound ∧
    (stat emptyIdStore 5 (createUri "" "data.csv")).1 = .error .fileNotFound :=
  ⟨rfl, rfl, rfl, rfl⟩

/-- C10 (amended): address resolution uses only the URI authority, so for
every live stored identifier that is nonempty, `readFile` and `stat` on
`identifier/filename` succeed — for every filename whatsoever — returning
that identifier's bytes and metadata. -/
theorem c10_filename_ignored (m : Store) (now : Nat) (id : String)
    (ds : DecryptedDataset) (hid : id ≠ "") (h : mapGet m id = some ds)
    (hlive : isExpired now ds = false) :
    ∀ filename : String,
      readFile m now (createUri id filename) = (.ok ds.content, m) ∧
      stat m now (createUri id filename) =
        (.ok { ftype := .file, ctime := ds.decryptedAt, mtime := ds.decryptedAt,
               size := ds.content.length }, m) := by
  intro filename
  have hg : getDataset m id now = (some ds, m) := by
    simp [getDataset, h, hlive]
  constructor
  · simp [readFile, createUri, extractTokenId, hid, getDatasetContent, hg]
  · simp [stat, createUri, extractTokenId, hid, getDatasetInfo, getDatasetContent, hg]

/-- C10 witness: two different filenames against the demo entry, neither
equal to its stored display name semantics mattering. -/
theorem c10_witness :
    readFile demoStore 5 (createUri "7" "other-name.bin") = (.ok [1, 2, 3], demoStore) ∧
    stat demoStore 5 (createUri "7" "whatever.txt") =
      (.ok { ftype := .file, ctime := 0, mtime := 0, size := 3 }, demoStore) :=
  ⟨(c10_filename_ignored demoStore 5 "7" demoDataset (by decide) rfl rfl "other-name.bin").1,
   (c10_filename_ignored demoStore 5 "7" demoDataset (by decide) rfl rfl "whatever.txt").2⟩

/-- C3 witness: reads strictly before, at, and strictly after the expiry
boundary of the demo entry, with and without an interleaved sweep. -/
theorem c3_witness :
    getDataset demoStore "7" 99 = (some demoDataset, demoStore) ∧
    getDataset demoStore "7" 101 = (none, mapDelete demoStore "7") ∧
    (getDataset (cleanupExpiredDatasets demoStore 101) "7" 101).1 =
      (getDataset demoStore "7" 101).1 :=
  ⟨(c3_get_expiry_boundary demoStore "7" demoDataset 99 rfl).1 (by decide),
   (c3_get_expiry_boundary demoStore "7" demoDataset 101 rfl).2.1 (by decide),
   (c3_get_expiry_boundary demoStore "7" demoDataset 101 rfl).2.2 101 (Nat.le_refl 101)
     (by decide)⟩

theorem verifySignature_eq_true_iff (recover : String → String → Option String)
    (a s n : String) :
    verifySignature recover a s n = true ↔
      ∃ r, recover (authMessage n) s = some r ∧ r.toLower = a.toLower := by
  unfold verifySignature
  cases hrec : recover (authMessage n) s with
  | none => simp
  | some r => simp

/-- C5: the callback handler responds success exactly when all fields are
present, the nonce equals the single outstanding challenge's nonce (a nonce
of a superseded or absent challenge never matches), the current time is not
past the challenge's expiry, and signature recovery over the canonical
message embedding that nonce yields the claimed address case-insensitively;
the pending authentication resolves (with the claimed address and the
signature) iff additionally a resolver is registered. -/
theorem c5_callback_verification (recover : String → String → Option String)
    (authChallenge : Option AuthenticationChallenge) (hasResolver : Bool) (now : Nat)
    (body : CallbackBody) :
    ((handleCallback recover authChallenge hasResolver now body).1 = .success ↔
      (body.address ≠ "" ∧ body.signature ≠ "" ∧ body.nonce ≠ "" ∧
       (∃ c, authChallenge = some c ∧ body.nonce = c.nonce ∧ now ≤ c.expiresAt) ∧
       (∃ r, recover (authMessage body.nonce) body.signature = some r ∧
          r.toLower = body.address.toLower))) ∧
    ((handleCallback recover authChallenge hasResolver now body).2 ≠ none ↔
      (hasResolver = true ∧
        (handleCallback recover authChallenge hasResolver now body).1 = .success)) ∧
    ((handleCallback recover authChallenge hasResolver now body).2 ≠ none →
      (handleCallback recover authChallenge hasResolver now body).2 =
        some (body.address, body.signature)) ∧
    (∀ c, authChallenge = some c → body.nonce ≠ c.nonce →
      (handleCallback recover authChallenge hasResolver now body).1 ≠ .success) ∧
    (authChallenge = none →
      (handleCallback recover authChallenge hasResolver now body).1 ≠ .success) := by
  have hchar := verifySignature_eq_true_iff recover body.address body.signature body.nonce
  unfold handleCallback
  split_ifs with h1 h2 h3 h4 h5
  · refine ⟨iff_of_false (by simp) ?_, by simp, by simp, by simp, by simp⟩
    rintro ⟨ha, hs, hn, -, -⟩
    rcases h1 with h | h | h
    exacts [absurd h ha, absurd h hs, absurd h hn]
  · refine ⟨iff_of_false (by simp) ?_, by simp, by simp, by simp, by simp⟩
    rintro ⟨-, -, -, ⟨c, hc, hn, -⟩, -⟩
    refine h2 ?_
    rw [hc]
    simp [hn]
  · refine ⟨iff_of_false (by simp) ?_, by simp, by simp, by simp, by simp⟩
    rintro ⟨-, -, -, ⟨c, hc, hn, hexp⟩, -⟩
    rw [hc] at h3
    simp only [Option.map_some', Option.getD_some] at h3
    omega
  · refine ⟨iff_of_false (by simp) ?_, by simp, by simp, by simp, by simp⟩
    rintro ⟨-, -, -, -, hr⟩
    have hv := hchar.mpr hr
    rw [hv] at h4
    simp at h4
  all_goals {
    have hv : verifySignature recover body.address body.signature body.nonce = true := by
      simpa using h4
    have hmatch : Option.map (fun x => x.nonce) authChallenge = some body.nonce :=
      not_not.mp h2
    obtain ⟨c, hc, hcn⟩ := Option.map_eq_some'.mp hmatch
    rw [hc] at h3
    simp only [Option.map_some', Option.getD_some] at h3
    push_neg at h1
    refine ⟨iff_of_true rfl
      ⟨h1.1, h1.2.1, h1.2.2, ⟨c, hc, hcn.symm, by omega⟩, hchar.mp hv⟩, ?_, ?_, ?_, ?_⟩
    · first
      | exact iff_of_true (fun habs => Option.noConfusion habs) ⟨h5, rfl⟩
      | exact iff_of_false (fun hx => absurd rfl hx) (fun hand => h5 hand.1)
    · first
      | exact fun _ => rfl
      | exact fun hx => absurd rfl hx
    · intro c2 hc2 hn2 habs
      rw [hc] at hc2
      have hcc : c = c2 := Option.some.inj hc2
      exact hn2 (hcc ▸ hcn.symm)
    · intro hnone habs
      rw [hnone] at hc
      exact Option.noConfusion hc }

/-- C5 witness: a well-formed callback against the outstanding challenge is
verified and resolves with the claimed address and signature; the same
callback is rejected once the challenge has been superseded by one with a
fresh nonce. -/
theorem c5_witness :
    (handleCallback demoRecover (some demoChallenge) true 50
        ⟨"0xabcd", "sig1", "n1"⟩).1 = .success ∧
    (handleCallback demoRecover (some demoChallenge) true 50
        ⟨"0xabcd", "sig1", "n1"⟩).2 = some ("0xabcd", "sig1") ∧
    (handleCallback demoRecover (some staleChallenge) true 50
        ⟨"0xabcd", "sig1", "n1"⟩).1 ≠ .success :=
  ⟨(c5_callback_verification demoRecover (some demoChallenge) true 50
      ⟨"0xabcd", "sig1", "n1"⟩).1.mpr
      ⟨by decide, by decide, by decide, ⟨demoChallenge, rfl, rfl, by decide⟩,
       ⟨"0xabcd", rfl, rfl⟩⟩,
   (c5_callback_verification demoRecover (some demoChallenge) true 50
      ⟨"0xabcd", "sig1", "n1"⟩).2.2.1
     ((c5_callback_verification demoRecover (some demoChallenge) true 50
        ⟨"0xabcd", "sig1", "n1"⟩).2.1.mpr
       ⟨rfl, (c5_callback_verification demoRecover (some demoChallenge) true 50
          ⟨"0xabcd", "sig1", "n1"⟩).1.mpr
          ⟨by decide, by decide, by decide, ⟨demoChallenge, rfl, rfl, by decide⟩,
           ⟨"0xabcd", rfl, rfl⟩⟩⟩),
   (c5_callback_verification demoRecover (some staleChallenge) true 50
      ⟨"0xabcd", "sig1", "n1"⟩).2.2.2.1 staleChallenge rfl (by decide)⟩

/-- C4: `decrypt` always tries the Fernet decoder first; the simple-AES
fallback runs exactly when the primary fails; a primary success or a
fallback success is returned as is; and when both strategies fail the
error surfaced is the primary decoder's typed error. -/
theorem c4_primary_then_fallback (data : List Nat) (key : String) :
    (decrypt data key).2.head? = some Attempt.primaryFernet ∧
    (Attempt.fallbackSimple ∈ (decrypt data key).2 ↔
      ∃ e, (decryptDataset data key).1 = .error e) ∧
    (∀ pt, (decryptDataset data key).1 = .ok pt → (decrypt data key).1 = .ok pt) ∧
    (∀ e, (decryptDataset data key).1 = .error e →
      (∀ pt, decryptSimple data key = .ok pt → (decrypt data key).1 = .ok pt) ∧
      ((∃ se, decryptSimple data key = .error se) → (decrypt data key).1 = .error e)) := by
  cases hf : (decryptDataset data key).1 with
  | ok pt => simp [decrypt, hf]
  | error e =>
    cases hs : decryptSimple data key with
    | ok pt2 => simp [decrypt, hf, hs]
    | error se => simp [decrypt, hf, hs]

/-- C4 witness: on a 3-byte input both strategies fail (`tooShort`,
IV too short) and the primary error is the one surfaced, after the
fallback was attempted. -/
theorem c4_witness :
    (decrypt [1, 2, 3] "k").1 = .error .tooShort ∧
    Attempt.fallbackSimple ∈ (decrypt [1, 2, 3] "k").2 :=
  ⟨((c4_primary_then_fallback [1, 2, 3] "k").2.2.2 .tooShort (by rfl)).2
     ⟨.invalidIvLength, by rfl⟩,
   ((c4_primary_then_fallback [1, 2, 3] "k").2.1).mpr ⟨.tooShort, by rfl⟩⟩

/-! ## Trace lemmas for the Fernet pipeline -/

namespace DecryptionService

theorem effectiveToken_ops_cases (data : List Nat) :
    (effectiveToken data).2 = [] ∨ (effectiveToken data).2 = [DecOp.b64TokenDecode] := by
  simp only [effectiveToken]
  split_ifs <;> simp

theorem effectiveToken_of_version (data : List Nat) (h : data.getD 0 0 = 0x80) :
    effectiveToken data = (data, []) := by
  simp only [effectiveToken]
  exact if_neg (fun hc => hc.2 h)

theorem fernetDecodeCore_ops_cases (buf : List Nat) (key : String) :
    (fernetDecodeCore buf key).2 = [] ∨
    (fernetDecodeCore buf key).2 = [DecOp.hmacCompute] ∨
    (fernetDecodeCore buf key).2 = [DecOp.hmacCompute, DecOp.blockDecrypt] := by
  simp only [fernetDecodeCore]
  split_ifs <;> try simp
  split <;> simp

theorem fernetDecodeCore_blockDecrypt_mem (buf : List Nat) (key : String) :
    DecOp.blockDecrypt ∈ (fernetDecodeCore buf key).2 ↔
      (¬buf.length < 57 ∧ buf.getD 0 0 = 0x80 ∧ (base64UrlDecode key).length = 32 ∧
       buf.drop (buf.length - 32) =
         Sha256.hmacSha256 ((base64UrlDecode key).take 16) (buf.take (buf.length - 32))) := by
  simp only [fernetDecodeCore]
  split_ifs with h1 h2 h3 h4
  · simp [h1]
  · simp only [List.not_mem_nil, false_iff]
    rintro ⟨-, hv, -, -⟩
    exact h2 hv
  · simp [h3]
  · exact iff_of_false (by simp) (fun hr => h4 hr.2.2.2)
  · push_neg at h2 h3 h4
    split <;> exact iff_of_true (by simp) ⟨h1, h2, h3, h4⟩

theorem fernetDecodeCore_authFailed (buf : List Nat) (key : String)
    (hlen : ¬buf.length < 57) (hver : buf.getD 0 0 = 0x80)
    (hkey : (base64UrlDecode key).length = 32)
    (htag : buf.drop (buf.length - 32) ≠
      Sha256.hmacSha256 ((base64UrlDecode key).take 16) (buf.take (buf.length - 32))) :
    fernetDecodeCore buf key = (.error .authenticationFailed, [DecOp.hmacCompute]) := by
  simp only [fernetDecodeCore]
  rw [if_neg hlen, if_neg (not_not_intro hver), if_neg (not_not_intro hkey), if_pos htag]

theorem fernetDecodeCore_badKey (buf : List Nat) (key : String)
    (hk : (base64UrlDecode key).length ≠ 32) :
    (fernetDecodeCore buf key).2 = [] ∧
    (∃ e, (fernetDecodeCore buf key).1 = .error e) ∧
    (¬buf.length < 57 → buf.getD 0 0 = 0x80 →
      fernetDecodeCore buf key = (.error .invalidKeyLength, [])) := by
  simp only [fernetDecodeCore]
  split_ifs with h1 h2
  · exact ⟨rfl, ⟨.tooShort, rfl⟩, fun hl _ => absurd h1 hl⟩
  · exact ⟨rfl, ⟨.invalidVersion, rfl⟩, fun _ hv => absurd hv h2⟩
  · exact ⟨rfl, ⟨.invalidKeyLength, rfl⟩, fun _ _ => rfl⟩

theorem getD_zero_eq_of_head (data : List Nat) (b : Nat)
    (hhead : data.head? = some b) : data.getD 0 0 = b ∧ 0 < data.length := by
  cases data with
  | nil => exact Option.noConfusion hhead
  | cons x t =>
    refine ⟨?_, by simp⟩
    simpa [List.getD] using Option.some.inj hhead

end DecryptionService

set_option maxRecDepth 1000000

/-- C7: whenever the base64url-decoded key material is not exactly 32
bytes, `decryptDataset` performs no HMAC computation and no block-cipher
decryption, always fails with a typed error, and — whenever the (possibly
base64-unwrapped) token passes its structural length/version checks — the
error is precisely `invalidKeyLength`. -/
theorem c7_key_length_guard (data : List Nat) (key : String)
    (hk : (base64UrlDecode key).length ≠ 32) :
    DecOp.hmacCompute ∉ (decryptDataset data key).2 ∧
    DecOp.blockDecrypt ∉ (decryptDataset data key).2 ∧
    (∃ e, (decryptDataset data key).1 = .error e) ∧
    (¬(effectiveToken data).1.length < 57 → (effectiveToken data).1.getD 0 0 = 0x80 →
      (decryptDataset data key).1 = .error .invalidKeyLength) := by
  obtain ⟨hcore0, ⟨e, he⟩, hcase⟩ :=
    fernetDecodeCore_badKey (effectiveToken data).1 key hk
  have hops : (decryptDataset data key).2 = (effectiveToken data).2 := by
    simp [decryptDataset, hcore0]
  have hdet := effectiveToken_ops_cases data
  refine ⟨?_, ?_, ⟨e, by simpa [decryptDataset] using he⟩, ?_⟩
  · rw [hops]
    rcases hdet with h | h <;> simp [h]
  · rw [hops]
    rcases hdet with h | h <;> simp [h]
  · intro hlen hver
    have := hcase hlen hver
    simp [decryptDataset, this]

/-- C7 witness: a 3-byte key against the well-formed demo token fails with
`invalidKeyLength` and no cryptographic operation appears in the trace. -/
theorem c7_witness :
    (decryptDataset demoToken "AAAA").1 = .error .invalidKeyLength ∧
    DecOp.hmacCompute ∉ (decryptDataset demoToken "AAAA").2 ∧
    DecOp.blockDecrypt ∉ (decryptDataset demoToken "AAAA").2 :=
  ⟨(c7_key_length_guard demoToken "AAAA" (by decide)).2.2.2 (by decide) (by decide),
   (c7_key_length_guard demoToken "AAAA" (by decide)).1,
   (c7_key_length_guard demoToken "AAAA" (by decide)).2.1⟩

/-- C8 counterexample: on the base64url-wrapped demo token with a
well-formed but non-authenticating 32-byte key, the decoded form begins
with the version byte and is retried, so the reported failure is the
decoded form's `authenticationFailed` — not the raw form's own error,
which is `invalidVersion` (the raw first byte is the letter `g`). -/
theorem c8_counterexample :
    demoTokenB64.head? = some 0x67 ∧
    (fernetDecodeCore demoTokenB64 zeroKey43).1 = .error .invalidVersion ∧
    (decryptDataset demoTokenB64 zeroKey43).1 = .error .authenticationFailed ∧
    DecodeError.invalidVersion ≠ DecodeError.authenticationFailed :=
  ⟨rfl, by rfl, by rfl, by decide⟩

/-- C8 (amended): when the first byte of a nonempty raw input is not
`0x80`, exactly one base64url decode of the input is attempted; if the
decoded form begins with `0x80`, validation is retried against it and its
outcome (hence, on failure, its error) is the one reported; otherwise the
raw form is validated and its error is the one reported.  In both cases
exactly one outcome is produced. -/
theorem c8_base64_detection (data : List Nat) (key : String) (b : Nat)
    (hhead : data.head? = some b) (hb : b ≠ 0x80) :
    ((decryptDataset data key).2.count DecOp.b64TokenDecode = 1) ∧
    (∀ decoded, decoded = base64UrlDecode (bytesToUtf8String data) →
      ((0 < decoded.length ∧ decoded.getD 0 0 = 0x80) →
        (decryptDataset data key).1 = (fernetDecodeCore decoded key).1) ∧
      (¬(0 < decoded.length ∧ decoded.getD 0 0 = 0x80) →
        (decryptDataset data key).1 = (fernetDecodeCore data key).1)) := by
  obtain ⟨hgd, hpos⟩ := getD_zero_eq_of_head data b hhead
  have hdet : (effectiveToken data) =
      (if 0 < (base64UrlDecode (bytesToUtf8String data)).length ∧
          (base64UrlDecode (bytesToUtf8String data)).getD 0 0 = 0x80
       then (base64UrlDecode (bytesToUtf8String data), [DecOp.b64TokenDecode])
       else (data, [DecOp.b64TokenDecode])) := by
    simp only [effectiveToken]
    rw [if_pos ⟨hpos, by rw [hgd]; exact hb⟩]
  by_cases hdec : 0 < (base64UrlDecode (bytesToUtf8String data)).length ∧
      (base64UrlDecode (bytesToUtf8String data)).getD 0 0 = 0x80
  · rw [if_pos hdec] at hdet
    have hcore := fernetDecodeCore_ops_cases (base64UrlDecode (bytesToUtf8String data)) key
    constructor
    · simp only [decryptDataset, hdet, List.count_append]
      rcases hcore with h | h | h <;> simp [h, List.count_cons]
    · intro decoded hdef
      subst hdef
      exact ⟨fun _ => by simp [decryptDataset, hdet], fun habs => absurd hdec habs⟩
  · rw [if_neg hdec] at hdet
    have hcore := fernetDecodeCore_ops_cases data key
    constructor
    · simp only [decryptDataset, hdet, List.count_append]
      rcases hcore with h | h | h <;> simp [h, List.count_cons]
    · intro decoded hdef
      subst hdef
      exact ⟨fun habs => absurd habs hdec, fun _ => by simp [decryptDataset, hdet]⟩

/-- C8 witness: the base64url-wrapped demo token triggers exactly one
base64 decode attempt and is retried against the decoded form. -/
theorem c8_witness :
    (decryptDataset demoTokenB64 zeroKey43).2.count DecOp.b64TokenDecode = 1 ∧
    (decryptDataset demoTokenB64 zeroKey43).1 =
      (fernetDecodeCore (base64UrlDecode (bytesToUtf8String demoTokenB64)) zeroKey43).1 :=
  ⟨(c8_base64_detection demoTokenB64 zeroKey43 0x67 rfl (by decide)).1,
   ((c8_base64_detection demoTokenB64 zeroKey43 0x67 rfl (by decide)).2
      (base64UrlDecode (bytesToUtf8String demoTokenB64)) rfl).1 (by decide)⟩

/-- C1: block-cipher decryption is attempted only after the structural
checks, key check, and HMAC tag verification have all succeeded (the trace
is the detection step followed by exactly `[hmacCompute, blockDecrypt]`,
and the embedded tag equals the recomputed HMAC); consequently, flipping
any single bit in the final 32 bytes (the tag region) of a token that
decrypts makes `decryptDataset` fail with `authenticationFailed` — never
with `decryptionFailed`. -/
theorem c1_tag_before_decryption :
    (∀ (data : List Nat) (key : String),
      DecOp.blockDecrypt ∈ (decryptDataset data key).2 →
      (decryptDataset data key).2 =
        (effectiveToken data).2 ++ [DecOp.hmacCompute, DecOp.blockDecrypt] ∧
      (effectiveToken data).1.drop ((effectiveToken data).1.length - 32) =
        Sha256.hmacSha256 ((base64UrlDecode key).take 16)
          ((effectiveToken data).1.take ((effectiveToken data).1.length - 32))) ∧
    (∀ (data : List Nat) (key : String) (i k : Nat),
      data.head? = some 0x80 → data.length - 32 ≤ i → i < data.length → k < 8 →
      DecOp.blockDecrypt ∈ (decryptDataset data key).2 →
      (decryptDataset (data.set i (data.getD i 0 ^^^ (1 <<< k))) key).1 =
        .error .authenticationFailed) := by
  have hmain : ∀ (data : List Nat) (key : String),
      DecOp.blockDecrypt ∈ (decryptDataset data key).2 →
      DecOp.blockDecrypt ∈ (fernetDecodeCore (effectiveToken data).1 key).2 := by
    intro data key hmem
    simp only [decryptDataset, List.mem_append] at hmem
    rcases hmem with hdet | hcore
    · rcases effectiveToken_ops_cases data with h | h <;> rw [h] at hdet <;> simp at hdet
    · exact hcore
  constructor
  · intro data key hmem
    have hcore := hmain data key hmem
    obtain ⟨-, -, -, htag⟩ := (fernetDecodeCore_blockDecrypt_mem _ key).mp hcore
    refine ⟨?_, htag⟩
    rcases fernetDecodeCore_ops_cases (effectiveToken data).1 key with h | h | h
    · rw [h] at hcore
      simp at hcore
    · rw [h] at hcore
      simp at hcore
    · simp [decryptDataset, h]
  · intro data key i k hhead hi1 hi2 hk hmem
    obtain ⟨hgd, hpos⟩ := getD_zero_eq_of_head data 0x80 hhead
    have heff : effectiveToken data = (data, []) := effectiveToken_of_version data hgd
    have hcore := hmain data key hmem
    rw [heff] at hcore
    obtain ⟨hlen, -, hkey, htag⟩ := (fernetDecodeCore_blockDecrypt_mem data key).mp hcore
    set v := data.getD i 0 ^^^ (1 <<< k) with hv
    have hlen57 : 57 ≤ data.length := by omega
    have hset_len : (data.set i v).length = data.length := List.length_set data i v
    have hne0 : i ≠ 0 := by omega
    have hgd0 : (data.set i v).getD 0 0 = 0x80 := by
      rw [List.getD_eq_getElem?_getD, List.getElem?_set_ne hne0,
        ← List.getD_eq_getElem?_getD, hgd]
    have heff2 : effectiveToken (data.set i v) = (data.set i v, []) :=
      effectiveToken_of_version _ hgd0
    have htake : (data.set i v).take (data.length - 32) = data.take (data.length - 32) := by
      rw [List.set_take, List.set_eq_of_length_le]
      rw [List.length_take]
      omega
    have hdrop : (data.set i v).drop (data.length - 32) =
        (data.drop (data.length - 32)).set (i - (data.length - 32)) v := by
      rw [List.drop_set, if_neg (by omega)]
    have hxor_ne : v ≠ data.getD i 0 := by
      rw [hv]
      intro heq
      have hshift : (1 <<< k) ≠ 0 := by
        rw [Nat.shiftLeft_eq]
        positivity
      apply hshift
      have hcalc : data.getD i 0 ^^^ (data.getD i 0 ^^^ (1 <<< k)) = 1 <<< k := by
        rw [← Nat.xor_assoc, Nat.xor_self, Nat.zero_xor]
      rw [heq, Nat.xor_self] at hcalc
      exact hcalc.symm
    have htag2 : (data.set i v).drop ((data.set i v).length - 32) ≠
        Sha256.hmacSha256 ((base64UrlDecode key).take 16)
          ((data.set i v).take ((data.set i v).length - 32)) := by
      rw [hset_len, htake, hdrop, ← htag]
      intro heq
      have hj : i - (data.length - 32) < (data.drop (data.length - 32)).length := by
        rw [List.length_drop]
        omega
      have := congrArg (fun l => l[i - (data.length - 32)]?) heq
      simp only [List.getElem?_set_self hj] at this
      have hidx : (data.drop (data.length - 32))[i - (data.length - 32)]? = data[i]? := by
        rw [List.getElem?_drop]
        congr 1
        omega
      rw [hidx] at this
      have hdataeq : data[i]? = some (data.getD i 0) := by
        rw [List.getD_eq_getElem?_getD, List.getElem?_eq_getElem hi2]
        rfl
      rw [hdataeq] at this
      exact hxor_ne (Option.some.inj this.symm).symm
    have hfail := fernetDecodeCore_authFailed (data.set i v) key
      (by omega) hgd0 hkey htag2
    simp [decryptDataset, heff2, hfail]

/-- C1 witness: the demo token decrypts (so its trace ends in
`hmacCompute, blockDecrypt`), and flipping bit 0 of tag byte 60 makes
decoding fail with `authenticationFailed`. -/
theorem c1_witness :
    (decryptDataset demoToken demoKey).2 =
      (effectiveToken demoToken).2 ++ [DecOp.hmacCompute, DecOp.blockDecrypt] ∧
    (decryptDataset (demoToken.set 60 (demoToken.getD 60 0 ^^^ (1 <<< 0))) demoKey).1 =
      .error .authenticationFailed :=
  ⟨(c1_tag_before_decryption.1 demoToken demoKey (by decide)).1,
   c1_tag_before_decryption.2 demoToken demoKey 60 0 (by rfl) (by decide) (by decide)
     (by decide) (by decide)⟩

end QuantifyX
